import Mathlib

/-!
Verification of the card-resolution and timesheet-aggregation engine of a
Discord/Favro timesheet bot.  The JavaScript source (bot entry file) is
shallowly embedded below: strings are `List Char`, JavaScript objects are
structures with `Option` fields (`??` becomes `Option.getD`, truthiness of a
string value becomes the `truthy` helper), remote HTTP calls made through the
axios client are abstracted into an `Env` of oracle functions, and every
operation additionally returns the list of remote requests it issued, so that
statements about "no remote call is made" or "at most N pages are fetched" can
be expressed.  A Gateway-level hard failure (timeout or non-403 HTTP error,
which the code re-throws) is `Except.error ()`; an HTTP 403 is the
`ApiResult.denied` constructor, which the code handles specially.
-/

set_option maxHeartbeats 1000000

namespace FavroBot

/-- Shorthand: the characters of a string literal. -/
def cs (s : String) : List Char := s.toList

/-- Whitespace test used by `String.prototype.trim` (modelled by the usual
ASCII whitespace characters, which is what every token in scope contains). -/
def isWS (c : Char) : Bool := c.isWhitespace

/-- `s.trim()`: drop whitespace from both ends. -/
def trimChars (l : List Char) : List Char :=
  (((l.dropWhile isWS).reverse).dropWhile isWS).reverse

/-- Uppercasing of a string, `s.toUpperCase()` (ASCII letters). -/
def upperChars (l : List Char) : List Char := l.map Char.toUpper

/-- Lowercasing of a string, `s.toLowerCase()` (ASCII letters). -/
def lowerChars (l : List Char) : List Char := l.map Char.toLower

/-- The numeric value denoted by a digit string, `Number(digits)`. -/
def decDigits (l : List Char) : Nat :=
  l.foldl (fun acc c => acc * 10 + (c.toNat - 48)) 0

/-- The decimal digit character for `d < 10`. -/
def digitChar (d : Nat) : Char := Char.ofNat (48 + d)

/-- Fuelled decimal printer (the fuel `n + 1` always suffices). -/
def natToCharsAux : Nat → Nat → List Char → List Char
  | 0, _, acc => acc
  | fuel + 1, n, acc =>
    if n < 10 then digitChar n :: acc
    else natToCharsAux fuel (n / 10) (digitChar (n % 10) :: acc)

/-- `String(n)` for a non-negative integer: its decimal digits. -/
def natToChars (n : Nat) : List Char := natToCharsAux (n + 1) n []

/-- JavaScript truthiness of a possibly-absent string value: `null`,
`undefined` and the empty string are falsy. -/
def truthy : Option (List Char) → Option (List Char)
  | some v => if v = [] then none else some v
  | none => none

/-- `x || d` for a possibly-absent string `x` with default `d`. -/
def orDefault (s : Option (List Char)) (d : List Char) : List Char :=
  match s with
  | some v => if v = [] then d else v
  | none => d

/-- A parsed `PREFIX-SEQUENCE` key (result of `parseKey`): uppercased prefix
and integer sequence number. -/
structure KeyRef where
  pfx : List Char
  sequentialId : Nat
deriving DecidableEq, Repr

/-- `parseKey` without the leading `trim`: the anchored regex
`^([A-Za-z]+)-(\d+)$`.  Since `[A-Za-z]+` is greedy and a letter can never
match `-`, the regex match is exactly: maximal alphabetic prefix (nonempty),
then `-`, then a nonempty all-digit remainder. -/
def parseKeyCore (s : List Char) : Option KeyRef :=
  let a := s.takeWhile Char.isAlpha
  match s.dropWhile Char.isAlpha with
  | '-' :: b =>
    if a = [] then none
    else if b = [] then none
    else if b.all Char.isDigit then some ⟨upperChars a, decDigits b⟩
    else none
  | _ => none

/-- `parseKey(token)` (source lines 155-158): trim, then match
`^([A-Za-z]+)-(\d+)$`, yielding an uppercased prefix and the integer
sequence. -/
def parseKey (token : List Char) : Option KeyRef := parseKeyCore (trimChars token)

/-- Character class `[A-Za-z0-9_-]` of the opaque-card-id regex. -/
def commonIdChar (c : Char) : Bool := c.isAlphanum || c == '_' || c == '-'

/-- The test on source line 327 (and 182): `/^[A-Za-z0-9_-]{8,}$/.test(t) &&
!t.includes('-')` — a long hyphen-free identifier treated as a
`cardCommonId`. -/
def looksLikeCommonId (t : List Char) : Bool :=
  decide (8 ≤ t.length) && t.all commonIdChar && !(decide ('-' ∈ t))

/-- The classification of a non-URL token implied by the dispatch order of
`handleTimesheet` (source lines 326-337): the opaque-id shape is probed
first, then `parseKey`; a scheme-less token can never parse as a URL
(`new URL` throws), so the URL branch yields `null` for these strings. -/
inductive TokenClass where
  | commonId : TokenClass
  | keyRef : KeyRef → TokenClass
  | unparseable : TokenClass
deriving DecidableEq, Repr

/-- Token classification as performed by `handleTimesheet` on a non-URL
token. -/
def classifyToken (t : List Char) : TokenClass :=
  if looksLikeCommonId t then TokenClass.commonId
  else
    match parseKey t with
    | some k => TokenClass.keyRef k
    | none => TokenClass.unparseable

/-- One logged-time sub-record of the time custom field (an element of
`cf.reports[userId]`): duration in milliseconds, free-text description and
ISO creation instant.  Instants are modelled as epoch milliseconds; `none`
models an absent/empty `createdAt`. -/
structure Report where
  value : Option Nat
  description : Option (List Char)
  createdAt : Option Int
deriving DecidableEq, Repr

/-- A custom field of a card; `reports` is the per-user record object of a
time-tracking field (`none` models a missing/falsy `cf.reports`). -/
structure CustomField where
  customFieldId : List Char
  reports : Option (List (List Char × List Report))
deriving DecidableEq, Repr

/-- A Favro card as used by the bot (fields that the code reads). -/
structure Card where
  sequentialId : Option Nat
  cardNumber : Option Nat
  cardIdShort : Option Nat
  pfx : Option (List Char)
  workspacePfx : Option (List Char)
  cardCommonId : Option (List Char)
  customFields : List CustomField
deriving DecidableEq, Repr

/-- `c?.sequentialId ?? c?.cardNumber ?? c?.cardIdShort` (null-coalescing). -/
def coalesceSeq (c : Card) : Option Nat :=
  match c.sequentialId with
  | some n => some n
  | none =>
    match c.cardNumber with
    | some n => some n
    | none => c.cardIdShort

/-- `(c?.prefix ?? c?.workspacePrefix ?? '').toString().toUpperCase()` as in
the scan loop (source line 226). -/
def pagePre (c : Card) : List Char :=
  upperChars ((c.pfx).getD ((c.workspacePfx).getD []))

/-- `getCardKey(card)` (source lines 102-109): display key `PRE-SEQ`, falling
back to the bare sequence, then to the uppercased 8-char head of
`cardCommonId`, then to `"(card)"`.  `seq && pre` is JS truthiness: a zero
sequence or empty prefix is falsy. -/
def getCardKey (c : Card) : List Char :=
  let seq := coalesceSeq c
  let pre := (c.pfx).getD ((c.workspacePfx).getD [])
  match seq with
  | some n =>
    if n ≠ 0 ∧ pre ≠ [] then pre ++ '-' :: natToChars n
    else if n ≠ 0 then natToChars n
    else
      match truthy c.cardCommonId with
      | some cid => upperChars (cid.take 8)
      | none => cs "(card)"
  | none =>
    match truthy c.cardCommonId with
    | some cid => upperChars (cid.take 8)
    | none => cs "(card)"

/-- Milliseconds per day. -/
def msPerDay : Int := 86400000

/-- `dayjs().tz(TZ).startOf('day')` for the current instant `now`, with the
configured timezone modelled as a fixed offset `off` (milliseconds to add to
UTC to obtain local wall-clock time): the instant of local midnight. -/
def startOfDayTZ (now off : Int) : Int := now - (now + off) % msPerDay

/-- `dayjs().tz(TZ).endOf('day')`: the instant of local 23:59:59.999. -/
def endOfDayTZ (now off : Int) : Int := startOfDayTZ now off + (msPerDay - 1)

/-- `isTodayInTZ(iso)` (source lines 111-117): false for a missing/empty
timestamp; otherwise `(t.isAfter(s) && t.isBefore(e)) || t.isSame(s) ||
t.isSame(e)` with `s`/`e` the local start/end of the current day. -/
def isTodayInTZ (iso : Option Int) (now off : Int) : Bool :=
  match iso with
  | none => false
  | some t =>
    let s := startOfDayTZ now off
    let e := endOfDayTZ now off
    decide ((s < t ∧ t < e) ∨ t = s ∨ t = e)

/-- One row of the aggregated report (`results` entries in
`handleTimesheet`). -/
structure ReportLine where
  cardKey : List Char
  time : List Char
  desc : List Char
deriving DecidableEq, Repr

/-- The value a report sub-record is mapped to by `extractTodaysReports`:
`{ ms: r.value || 0, desc: r.description || '(no description)', createdAt }`. -/
structure Entry where
  ms : Nat
  desc : List Char
  createdAt : Option Int
deriving DecidableEq, Repr

/-- The per-record mapping inside `extractTodaysReports`. -/
def toEntry (r : Report) : Entry :=
  ⟨(r.value).getD 0, orDefault r.description (cs "(no description)"), r.createdAt⟩

/-- `extractTodaysReports(card, favroUserId, timeCfId)` (source lines
261-274): find the time custom field, take the invoking user's records, keep
those created today (timezone-converted), and map them to entries.  The
reference instant `now` and fixed offset `off` stand for `dayjs()` and the
configured timezone. -/
def extractTodaysReports (card : Card) (favroUserId timeCfId : List Char)
    (now off : Int) : List Entry :=
  match card.customFields.find? (fun f => f.customFieldId = timeCfId) with
  | none => []
  | some cf =>
    match cf.reports with
    | none => []
    | some reps =>
      let entries := (reps.lookup favroUserId).getD []
      (entries.filter (fun r => isTodayInTZ r.createdAt now off)).map toEntry

/-- `fmtHHMM(ms)` (source lines 93-100).  For a non-negative integer `ms`,
`Math.round(ms / 60000) = (ms + 30000) / 60000` in integer division
(round-half-up to the nearest whole minute). -/
def pad2 (n : Nat) : List Char :=
  let s := natToChars n
  if s.length < 2 then '0' :: s else s

/-- The rounded minute count used by `fmtHHMM`. -/
def roundedMins (ms : Nat) : Nat := (ms + 30000) / 60000

/-- `fmtHHMM`: zero-padded `HH:MM`, hours unbounded. -/
def fmtHHMM (ms : Nat) : List Char :=
  let mins := roundedMins ms
  let h := mins / 60
  let m := mins % 60
  pad2 h ++ ':' :: pad2 m

/-- Outcome of one remote call through the Favro axios client: a 2xx payload,
an HTTP 403 (handled specially by the code), or a Gateway-level hard failure
(timeout or any other non-2xx status, which the code re-throws). -/
inductive ApiResult (α : Type) where
  | ok : α → ApiResult α
  | denied : ApiResult α
  | fail : ApiResult α
deriving DecidableEq, Repr

/-- Payload of a paginated `GET /cards?widgetCommonId=...` response:
`entities` and the raw `data.pages` value (`0` models a falsy/absent field,
which `data.pages || 1` turns into `1`). -/
structure PageData where
  entities : List Card
  pagesRaw : Nat
deriving DecidableEq, Repr

/-- The outcome of `new URL(raw)` for a token, pre-digested: hostname, the
non-empty path segments (`url.pathname.split('/').filter(Boolean)`), and
`url.searchParams.get('card') || ''`. -/
structure UrlObj where
  hostname : List Char
  pathParts : List (List Char)
  cardParam : List Char
deriving DecidableEq, Repr

/-- Remote requests issued by the engine, recorded so that statements about
which calls happen (and how many) can be made. -/
inductive Req where
  | getCardsByCommonId : List Char → Req
  | getCardsByWidget : List Char → Nat → Req
deriving DecidableEq, Repr

/-- The environment of the engine: the remote Favro API (as oracle functions
from request parameters to responses), the platform URL parser (`new URL`,
which throws — `none` — on scheme-less strings), and the configuration
(`FAVRO_WIDGET_IDS`, `FAVRO_MAX_PAGES_PER_WIDGET`). -/
structure Env where
  cardsByCommonId : List Char → ApiResult (List Card)
  cardsByWidget : List Char → Nat → ApiResult PageData
  tryURL : List Char → Option UrlObj
  widgetIds : List (List Char)
  maxPages : Nat

/-- `fetchCardByCommonId(cardCommonId)` (source lines 142-152): one direct
lookup; a 403 yields `null` (an expected outcome), any other error is
re-thrown. -/
def fetchCardByCommonId (env : Env) (cid : List Char) :
    List Req × Except Unit (Option Card) :=
  ([Req.getCardsByCommonId cid],
    match env.cardsByCommonId cid with
    | ApiResult.ok cards => Except.ok cards.head?
    | ApiResult.denied => Except.ok none
    | ApiResult.fail => Except.error ())

/-- Hostname test of `parseFavroUrlToken`:
`/\.favro\.com$|^favro\.com$/i.test(url.hostname)`. -/
def hostMatchesFavro (h : List Char) : Bool :=
  decide (lowerChars h = cs "favro.com") ||
    (cs ".favro.com").isSuffixOf (lowerChars h)

/-- The widget/card identifiers extracted from a pasted Favro URL. -/
structure FavroUrlParts where
  orgId : List Char
  widgetCommonId : List Char
  cardCommonId : Option (List Char)
  cardKey : Option (List Char)
deriving DecidableEq, Repr

/-- `parseFavroUrlToken(raw)` (source lines 164-189): accept only tracker
URLs with an `organization/<org>/<widget>` path pair; classify the `card`
query parameter as an opaque card id or a `KEY-123` key. -/
def parseFavroUrlToken (env : Env) (raw : List Char) : Option FavroUrlParts :=
  match env.tryURL raw with
  | none => none
  | some url =>
    if hostMatchesFavro url.hostname then
      match url.pathParts.indexOf? (cs "organization") with
      | none => none
      | some orgIdx =>
        if url.pathParts.length < orgIdx + 3 then none
        else
          let orgId := url.pathParts.getD (orgIdx + 1) []
          let widgetCommonId := url.pathParts.getD (orgIdx + 2) []
          let cardCommonId :=
            if looksLikeCommonId url.cardParam then some url.cardParam else none
          let cardKey :=
            if looksLikeCommonId url.cardParam then none
            else if (parseKeyCore url.cardParam).isSome then some url.cardParam
            else none
          some ⟨orgId, widgetCommonId, cardCommonId, cardKey⟩
    else none

/-- The joint prefix+sequence verification applied to a detailed card
(source line 245): `detailedPre && detailedPre === key.prefix &&
detailedSeqNum === key.sequentialId`. -/
def detailMatches (key : KeyRef) (d : Card) : Bool :=
  decide (pagePre d ≠ []) && decide (pagePre d = key.pfx) &&
    decide (coalesceSeq d = some key.sequentialId)

/-- The entity loop of `findCardByKeyInBoards` over one page (source lines
223-251): on a sequence match, accept immediately when the page prefix is
present and equal (enriching via a detail fetch when a card id is present);
otherwise perform one detail fetch and accept only on a joint
prefix+sequence match; in every other case continue with the next entity. -/
def scanEntities (env : Env) (key : KeyRef) : List Card → List Req × Except Unit (Option Card)
  | [] => ([], Except.ok none)
  | c :: rest =>
    if coalesceSeq c = some key.sequentialId then
      if pagePre c ≠ [] ∧ pagePre c = key.pfx then
        match truthy c.cardCommonId with
        | some cid =>
          match fetchCardByCommonId env cid with
          | (log, Except.error e) => (log, Except.error e)
          | (log, Except.ok dOpt) => (log, Except.ok (some (dOpt.getD c)))
        | none => ([], Except.ok (some c))
      else
        match truthy c.cardCommonId with
        | some cid =>
          match fetchCardByCommonId env cid with
          | (log, Except.error e) => (log, Except.error e)
          | (log, Except.ok (some d)) =>
            if detailMatches key d then (log, Except.ok (some d))
            else
              match scanEntities env key rest with
              | (log2, r2) => (log ++ log2, r2)
          | (log, Except.ok none) =>
            match scanEntities env key rest with
            | (log2, r2) => (log ++ log2, r2)
        | none => scanEntities env key rest
    else scanEntities env key rest

/-- The page loop of `findCardByKeyInBoards` for one widget (source lines
200-253): `while (page < pages && page < MAX_PAGES_PER_WIDGET)`, where
`pages` is refreshed from each response (`data.pages || 1`).  The fuel
argument carries `MAX_PAGES_PER_WIDGET - page`, so the two loop conditions
are `page < pages` and `0 < fuel`.  A 403 on the list call skips the rest of
this widget (`Except.ok none`); any other error propagates. -/
def scanPages (env : Env) (key : KeyRef) (w : List Char) :
    Nat → Nat → Nat → List Req × Except Unit (Option Card)
  | _, _, 0 => ([], Except.ok none)
  | page, pages, fuel + 1 =>
    if page < pages then
      match env.cardsByWidget w page with
      | ApiResult.denied => ([Req.getCardsByWidget w page], Except.ok none)
      | ApiResult.fail => ([Req.getCardsByWidget w page], Except.error ())
      | ApiResult.ok data =>
        let pagesNew := if data.pagesRaw = 0 then 1 else data.pagesRaw
        match scanEntities env key data.entities with
        | (log, Except.error e) => (Req.getCardsByWidget w page :: log, Except.error e)
        | (log, Except.ok (some c)) => (Req.getCardsByWidget w page :: log, Except.ok (some c))
        | (log, Except.ok none) =>
          match scanPages env key w (page + 1) pagesNew fuel with
          | (log2, r2) => (Req.getCardsByWidget w page :: (log ++ log2), r2)
    else ([], Except.ok none)

/-- The widget loop of `findCardByKeyInBoards` (source lines 199-257): scan
each widget in order, stopping at the first found card; a widget that was
skipped (403) or exhausted without a match falls through to the next. -/
def scanWidgets (env : Env) (key : KeyRef) : List (List Char) → List Req × Except Unit (Option Card)
  | [] => ([], Except.ok none)
  | w :: ws =>
    match scanPages env key w 0 1 env.maxPages with
    | (log, Except.error e) => (log, Except.error e)
    | (log, Except.ok (some c)) => (log, Except.ok (some c))
    | (log, Except.ok none) =>
      match scanWidgets env key ws with
      | (log2, r2) => (log ++ log2, r2)

/-- The scan priority list (source lines 194-196): the preferred widget (if
truthy) first, then the configured widgets, each appended only if not
already present. -/
def orderedWidgets (preferredWidgetId : Option (List Char)) (ids : List (List Char)) :
    List (List Char) :=
  ids.foldl (fun acc w => if w ∈ acc then acc else acc ++ [w])
    (match truthy preferredWidgetId with
     | some p => [p]
     | none => [])

/-- `findCardByKeyInBoards(key, preferredWidgetId)` (source lines 193-259). -/
def findCardByKeyInBoards (env : Env) (key : KeyRef)
    (preferredWidgetId : Option (List Char)) : List Req × Except Unit (Option Card) :=
  scanWidgets env key (orderedWidgets preferredWidgetId env.widgetIds)

/-- The URL branch of the per-token loop (source lines 313-324): a parsed
Favro URL supplies a preferred widget (`widgetCommonId || null`) and may
resolve the card directly (by opaque id) or through a key scan. -/
def urlResolve (env : Env) (t : List Char) :
    List Req × Except Unit (Option Card × Option (List Char)) :=
  match parseFavroUrlToken env t with
  | none => ([], Except.ok (none, none))
  | some parts =>
    let pref := truthy (some parts.widgetCommonId)
    match parts.cardCommonId with
    | some cid =>
      match fetchCardByCommonId env cid with
      | (log, Except.error e) => (log, Except.error e)
      | (log, Except.ok c) => (log, Except.ok (c, pref))
    | none =>
      match parts.cardKey with
      | some ck =>
        match parseKey ck with
        | some k =>
          match findCardByKeyInBoards env k pref with
          | (log, Except.error e) => (log, Except.error e)
          | (log, Except.ok c) => (log, Except.ok (c, pref))
        | none => ([], Except.ok (none, pref))
      | none => ([], Except.ok (none, pref))

/-- The final `KEY-123` fallback of the per-token loop (source lines
332-337), entered when no card was resolved yet. -/
def keyFallback (env : Env) (t : List Char) (log : List Req)
    (pref : Option (List Char)) : List Req × Except Unit (Option Card) :=
  match parseKey t with
  | some k =>
    match findCardByKeyInBoards env k pref with
    | (log2, r2) => (log ++ log2, r2)
  | none => (log, Except.ok none)

/-- Resolution of one token (source lines 309-337): URL branch, then the
unconditional opaque-id probe (which overwrites any URL result), then the
key-scan fallback when still unresolved. -/
def resolveToken (env : Env) (t : List Char) : List Req × Except Unit (Option Card) :=
  match urlResolve env t with
  | (log0, Except.error e) => (log0, Except.error e)
  | (log0, Except.ok (card0, pref)) =>
    if looksLikeCommonId t then
      match fetchCardByCommonId env t with
      | (log1, Except.error e) => (log0 ++ log1, Except.error e)
      | (log1, Except.ok (some c)) => (log0 ++ log1, Except.ok (some c))
      | (log1, Except.ok none) => keyFallback env t (log0 ++ log1) pref
    else
      match card0 with
      | some c => (log0, Except.ok (some c))
      | none => keyFallback env t log0 pref

/-- The sentinel line for a token that could not be resolved (source line
341). -/
def notFoundLine (t : List Char) : ReportLine :=
  ⟨t, cs "00:00", cs "(card not found in scoped boards)"⟩

/-- The sentinel line for a resolved card with no entry today (source lines
356-360). -/
def noEntryLine (card : Card) : ReportLine :=
  ⟨getCardKey card, cs "00:00", cs "(no timesheet entry for today)"⟩

/-- One rendered entry line (source lines 347-353). -/
def entryLine (card : Card) (e : Entry) : ReportLine :=
  ⟨getCardKey card, fmtHHMM e.ms, e.desc⟩

/-- The lines one token contributes (source lines 309-361): a not-found
sentinel, a no-entry-today sentinel, or one line per extracted entry. -/
def tokenResults (env : Env) (favroUserId timeCfId : List Char) (now off : Int)
    (t : List Char) : List Req × Except Unit (List ReportLine) :=
  match resolveToken env t with
  | (log, Except.error e) => (log, Except.error e)
  | (log, Except.ok none) => (log, Except.ok [notFoundLine t])
  | (log, Except.ok (some card)) =>
    let entries := extractTodaysReports card favroUserId timeCfId now off
    if entries = [] then (log, Except.ok [noEntryLine card])
    else (log, Except.ok (entries.map (entryLine card)))

/-- The token loop inside the `try` of `handleTimesheet` (source lines
307-362): tokens are processed sequentially, in order; the first Gateway
failure aborts the whole loop and discards all accumulated results. -/
def processTokens (env : Env) (favroUserId timeCfId : List Char) (now off : Int) :
    List (List Char) → List Req × Except Unit (List ReportLine)
  | [] => ([], Except.ok [])
  | t :: ts =>
    match tokenResults env favroUserId timeCfId now off t with
    | (log, Except.error e) => (log, Except.error e)
    | (log, Except.ok lines) =>
      match processTokens env favroUserId timeCfId now off ts with
      | (log2, Except.error e) => (log ++ log2, Except.error e)
      | (log2, Except.ok rest) => (log ++ log2, Except.ok (lines ++ rest))

/-- `${r.cardKey} - ${r.time}\n* ${r.desc}` (source line 380). -/
def renderLine (r : ReportLine) : List Char :=
  r.cardKey ++ cs " - " ++ r.time ++ cs "\n* " ++ r.desc

/-- `results.map(...).join('\n')` (source lines 379-381). -/
def renderBody (rs : List ReportLine) : List Char :=
  List.intercalate (cs "\n") (rs.map renderLine)

/-- The identity link store (`data/user-map.json` as loaded by `loadMap`): a
map from Discord user id to Favro user id, modelled by its lookup
function. -/
def Mapp : Type := List Char → Option (List Char)

/-- Reply strings of `handleTimesheet`. -/
def unlinkedMsg : List Char :=
  cs "You are not linked to Favro yet. Run `/linkfavro email:<your-favro-email>` first."

/-- Reply when `FAVRO_TIME_CF_ID` is unset. -/
def missingCfMsg : List Char :=
  cs "Bot is missing FAVRO_TIME_CF_ID. Ask an admin to set it in the environment."

/-- Reply when the token list is empty. -/
def noTokensMsg : List Char :=
  cs "Please provide card numbers or IDs, e.g. `/timesheet cards:BOK-5106 BOK-5120`"

/-- The single generic user-facing message for a batch-fatal Gateway failure
(source line 374). -/
def gatewayFailMsg : List Char :=
  cs "Could not fetch Favro cards right now. Please try again later."

/-- The report header (source line 378). -/
def headerStr : List Char := cs "Today\x27s update"

/-- What `handleTimesheet` delivers: the Favro requests it issued and the
single reply it edits in. -/
structure TimesheetOutcome where
  log : List Req
  reply : List Char
deriving DecidableEq

/-- `handleTimesheet(interaction)` (source lines 277-384), with the
interaction context supplied as arguments: the loaded identity map, the
caller id, the `FAVRO_TIME_CF_ID` configuration, the current instant and
timezone offset, and the already-split token list (`cards` split on
`/[, \n]+/`, trimmed, empties dropped). -/
def handleTimesheet (env : Env) (m : Mapp) (callerId : List Char)
    (timeCfId : Option (List Char)) (now off : Int)
    (tokens : List (List Char)) : TimesheetOutcome :=
  match truthy (m callerId) with
  | none => ⟨[], unlinkedMsg⟩
  | some favroUserId =>
    match truthy timeCfId with
    | none => ⟨[], missingCfMsg⟩
    | some cfId =>
      if tokens = [] then ⟨[], noTokensMsg⟩
      else
        match processTokens env favroUserId cfId now off tokens with
        | (log, Except.error _) => ⟨log, gatewayFailMsg⟩
        | (log, Except.ok results) => ⟨log, headerStr ++ cs "\n" ++ renderBody results⟩

/-- `handleLink` (source lines 386-407), restricted to its effect on the
identity link store: `lookedUp` is the outcome of `findFavroUserByEmail`
(`none` covers both a not-found user and a thrown error, in which cases
nothing is written); on success the caller's entry is assigned and the map
saved. -/
def handleLink (m : Mapp) (callerId : List Char) (lookedUp : Option (List Char)) : Mapp :=
  match lookedUp with
  | none => m
  | some uid => fun k => if k = callerId then some uid else m k

/-- `handleUnlink` (source lines 409-419): `if (map[id])` — a truthy entry is
deleted and the map saved (reply "Unlinked"), otherwise the map is untouched
(reply "You were not linked"); the boolean is which reply was sent. -/
def handleUnlink (m : Mapp) (callerId : List Char) : Mapp × Bool :=
  match truthy (m callerId) with
  | some _ => ((fun k => if k = callerId then none else m k), true)
  | none => (m, false)

/-! ### Concrete fixtures used to instantiate the theorems -/

deriving instance DecidableEq for Except

/-- A platform URL parser that rejects everything (scheme-less tokens). -/
def noUrl : List Char → Option UrlObj := fun _ => none

/-- An empty identity map. -/
def M0 : Mapp := fun _ => none

/-- An identity map linking caller `alice` to Favro user `u`. -/
def M1 : Mapp := fun k => if k = cs "alice" then some (cs "u") else none

/-- Card BOK-5106 with one 90-minute entry "Fixed bug" logged today by user
`u` in time field `f`. -/
def card9 : Card :=
  { sequentialId := some 5106, cardNumber := none, cardIdShort := none,
    pfx := some (cs "BOK"), workspacePfx := none, cardCommonId := none,
    customFields := [⟨cs "f", some [(cs "u", [⟨some 5400000, some (cs "Fixed bug"), some 0⟩])]⟩] }

/-- Environment for the BOK-5106 scenario: one widget `w` whose single page
lists `card9`. -/
def E9 : Env :=
  { cardsByCommonId := fun _ => ApiResult.ok [],
    cardsByWidget := fun w p => if w = cs "w" ∧ p = 0 then ApiResult.ok ⟨[card9], 1⟩ else ApiResult.fail,
    tryURL := noUrl, widgetIds := [cs "w"], maxPages := 10 }

/-- Card BOK-1, findable at page 0 of widget `w` (no time entries). -/
def card1 : Card :=
  { sequentialId := some 1, cardNumber := none, cardIdShort := none,
    pfx := some (cs "BOK"), workspacePfx := none, cardCommonId := none,
    customFields := [] }

/-- Environment for the batch-abort scenario: widget `w` reports two pages;
page 0 lists `card1` (so BOK-1 resolves there), page 1 fails at the Gateway
level (so any scan that reaches it, e.g. for BOK-2, aborts). -/
def E1 : Env :=
  { cardsByCommonId := fun _ => ApiResult.ok [],
    cardsByWidget := fun w p =>
      if w = cs "w" ∧ p = 0 then ApiResult.ok ⟨[card1], 2⟩ else ApiResult.fail,
    tryURL := noUrl, widgetIds := [cs "w"], maxPages := 10 }

/-- Card BOK-2 with two entries logged today by user `u` in field `f`. -/
def card3 : Card :=
  { sequentialId := some 2, cardNumber := none, cardIdShort := none,
    pfx := some (cs "BOK"), workspacePfx := none, cardCommonId := none,
    customFields := [⟨cs "f", some [(cs "u",
      [⟨some 3600000, some (cs "first"), some 0⟩,
       ⟨some 1800000, some (cs "second"), some 0⟩])]⟩] }

/-- Environment for the aggregation-order scenario: widget `w` has one page
listing only `card3`, so BOK-1 is unresolved and BOK-2 yields two lines. -/
def E3 : Env :=
  { cardsByCommonId := fun _ => ApiResult.ok [],
    cardsByWidget := fun w p => if w = cs "w" ∧ p = 0 then ApiResult.ok ⟨[card3], 1⟩ else ApiResult.fail,
    tryURL := noUrl, widgetIds := [cs "w"], maxPages := 10 }

/-- Card BOK-7, listed on widget `w2`. -/
def card7 : Card :=
  { sequentialId := some 7, cardNumber := none, cardIdShort := none,
    pfx := some (cs "BOK"), workspacePfx := none, cardCommonId := none,
    customFields := [] }

/-- Environment for the scope-denied scenario: widget `w1` denies access
(403), widget `w2` lists `card7`. -/
def E7 : Env :=
  { cardsByCommonId := fun _ => ApiResult.ok [],
    cardsByWidget := fun w p =>
      if w = cs "w1" then ApiResult.denied
      else if w = cs "w2" ∧ p = 0 then ApiResult.ok ⟨[card7], 1⟩ else ApiResult.fail,
    tryURL := noUrl, widgetIds := [cs "w1", cs "w2"], maxPages := 10 }

/-- The key `BOK-7`. -/
def key7 : KeyRef := ⟨cs "BOK", 7⟩

/-- The key `BOK-1`. -/
def key4 : KeyRef := ⟨cs "BOK", 1⟩

/-- A page entity whose sequence matches `key4` but whose page-payload prefix
is `ABC`, different from the key's prefix. -/
def cexCard : Card :=
  { sequentialId := some 1, cardNumber := none, cardIdShort := none,
    pfx := some (cs "ABC"), workspacePfx := none, cardCommonId := some (cs "x1"),
    customFields := [] }

/-- The detailed payload of `cexCard`, which reports prefix `BOK`. -/
def cexDetail : Card :=
  { sequentialId := some 1, cardNumber := none, cardIdShort := none,
    pfx := some (cs "BOK"), workspacePfx := none, cardCommonId := some (cs "x1"),
    customFields := [] }

/-- Environment in which the detailed fetch of `x1` returns `cexDetail`. -/
def E4 : Env :=
  { cardsByCommonId := fun cid => if cid = cs "x1" then ApiResult.ok [cexDetail] else ApiResult.ok [],
    cardsByWidget := fun _ _ => ApiResult.fail,
    tryURL := noUrl, widgetIds := [], maxPages := 10 }

/-- Environment for the scan-bound scenario: every page of every widget is an
empty single page. -/
def E6 : Env :=
  { cardsByCommonId := fun _ => ApiResult.ok [],
    cardsByWidget := fun _ _ => ApiResult.ok ⟨[], 1⟩,
    tryURL := noUrl, widgetIds := [cs "w1", cs "w2"], maxPages := 10 }

/-- An identity map whose entry for `carol` is the empty string (a falsy
value, as `loadMap` can produce from the JSON file). -/
def m10bad : Mapp := fun k => if k = cs "carol" then some [] else none

/-- An identity map linking `alice` to `u1`. -/
def m10 : Mapp := fun k => if k = cs "alice" then some (cs "u1") else none

/-- Whether a recorded request is a list-page fetch for widget `w`. -/
def isWidgetReq (w : List Char) : Req → Bool
  | Req.getCardsByWidget w2 _ => w2 = w
  | _ => false

/-- How many list pages of widget `w` a request log fetches. -/
def widgetReqCount (w : List Char) (log : List Req) : Nat :=
  (log.filter (isWidgetReq w)).length

/-! ### Helper lemmas -/

theorem natToCharsAux_ne_nil : ∀ (fuel n : Nat) (acc : List Char),
    natToCharsAux (fuel + 1) n acc ≠ [] := by
  intro fuel
  induction fuel with
  | zero =>
    intro n acc
    simp only [natToCharsAux]
    split
    · simp
    · simp [natToCharsAux]
  | succ f ih =>
    intro n acc
    simp only [natToCharsAux]
    split
    · simp
    · exact ih _ _

theorem natToChars_ne_nil (n : Nat) : natToChars n ≠ [] :=
  natToCharsAux_ne_nil n n []

theorem pad2_length (n : Nat) : 2 ≤ (pad2 n).length := by
  have h1 : 0 < (natToChars n).length := List.length_pos.mpr (natToChars_ne_nil n)
  by_cases h : (natToChars n).length < 2
  · simp only [pad2, h, if_true, List.length_cons]
    omega
  · simp only [pad2, h, if_false]
    omega

/-! ### Claim theorems -/

/-- Claim C2: a report request by a caller with no (truthy) entry in the
identity link store fails fast with the unlinked-caller reply, and the
request log is empty — zero remote API calls are made. -/
theorem C2_unlinked_fails_fast (env : Env) (m : Mapp) (callerId : List Char)
    (timeCfId : Option (List Char)) (now off : Int) (tokens : List (List Char))
    (h : truthy (m callerId) = none) :
    handleTimesheet env m callerId timeCfId now off tokens = ⟨[], unlinkedMsg⟩ := by
  unfold handleTimesheet
  rw [h]

/-- Witness for C2: an unlinked caller `bob` invoking the report over a
resolvable token receives the unlinked reply with no remote call made. -/
theorem C2_witness :
    handleTimesheet E9 M0 (cs "bob") (some (cs "f")) 0 0 [cs "BOK-5106"] = ⟨[], unlinkedMsg⟩ :=
  C2_unlinked_fails_fast E9 M0 (cs "bob") (some (cs "f")) 0 0 [cs "BOK-5106"] (by decide)

/-- Claim C9: durations are rendered as zero-padded `HH:MM`, the minute count
is `ms` rounded to the nearest whole minute (half-up), hours are unbounded
(`HH` is the full quotient by 60, never reduced modulo 24); the 90-minute
"Fixed bug" entry of card BOK-5106 renders as the line
`BOK-5106 - 01:30` with bullet `Fixed bug`. -/
theorem C9_duration_formatting :
    (∀ ms : Nat,
        roundedMins ms * 60000 ≤ ms + 30000
        ∧ ms + 30000 < (roundedMins ms + 1) * 60000
        ∧ fmtHHMM ms = pad2 (roundedMins ms / 60) ++ ':' :: pad2 (roundedMins ms % 60)
        ∧ 2 ≤ (pad2 (roundedMins ms / 60)).length
        ∧ 2 ≤ (pad2 (roundedMins ms % 60)).length
        ∧ roundedMins ms % 60 < 60
        ∧ roundedMins ms = roundedMins ms / 60 * 60 + roundedMins ms % 60)
    ∧ (tokenResults E9 (cs "u") (cs "f") 0 0 (cs "BOK-5106")).2
        = Except.ok [⟨cs "BOK-5106", cs "01:30", cs "Fixed bug"⟩]
    ∧ renderLine ⟨cs "BOK-5106", cs "01:30", cs "Fixed bug"⟩
        = cs "BOK-5106 - 01:30\n* Fixed bug" := by
  refine ⟨fun ms => ⟨?_, ?_, rfl, pad2_length _, pad2_length _, ?_, ?_⟩, by decide, by decide⟩
  · unfold roundedMins; omega
  · unfold roundedMins; omega
  · exact Nat.mod_lt _ (by norm_num)
  · omega

/-- Claim C10 counterexample: with a stored (but falsy) empty-string value
for caller `carol`, the entry exists, yet unlink reports "not linked" and
does not remove it — refuting "removes exactly the invoking caller's entry,
reporting whether it existed". -/
theorem C10_counterexample :
    (m10bad (cs "carol")).isSome = true
    ∧ (handleUnlink m10bad (cs "carol")).2 = false
    ∧ (handleUnlink m10bad (cs "carol")).1 (cs "carol") = some [] := by
  exact ⟨by decide, by decide, by decide⟩

/-- Claim C10 (amended): link and unlink leave every other caller's entry
unchanged; a successful link writes exactly the invoking caller's entry; and
unlink removes the invoking caller's entry and reports "was linked"
precisely when the stored value is truthy (present and non-empty) — an
absent or empty-string value is reported as not linked and the store is left
unchanged. -/
theorem C10_amended_frame (m : Mapp) (callerId other uid : List Char)
    (lookedUp : Option (List Char)) (hne : other ≠ callerId) :
    handleLink m callerId lookedUp other = m other
    ∧ (handleUnlink m callerId).1 other = m other
    ∧ handleLink m callerId (some uid) callerId = some uid
    ∧ (truthy (m callerId) = none → handleUnlink m callerId = (m, false))
    ∧ (truthy (m callerId) ≠ none →
        (handleUnlink m callerId).1 callerId = none ∧ (handleUnlink m callerId).2 = true) := by
  refine ⟨?_, ?_, ?_, ?_, ?_⟩
  · cases lookedUp with
    | none => rfl
    | some uid2 => simp [handleLink, hne]
  · unfold handleUnlink
    cases h : truthy (m callerId) with
    | none => rfl
    | some v => simp [hne]
  · simp [handleLink]
  · intro h
    unfold handleUnlink
    rw [h]
  · intro h
    unfold handleUnlink
    cases hh : truthy (m callerId) with
    | none => exact absurd hh h
    | some v => simp

/-- Witness for the amended C10 at a concrete store. -/
theorem C10_witness :
    handleLink m10 (cs "alice") (some (cs "u2")) (cs "bob") = m10 (cs "bob")
    ∧ (handleUnlink m10 (cs "alice")).1 (cs "bob") = m10 (cs "bob")
    ∧ handleLink m10 (cs "alice") (some (cs "u2")) (cs "alice") = some (cs "u2")
    ∧ (truthy (m10 (cs "alice")) = none → handleUnlink m10 (cs "alice") = (m10, false))
    ∧ (truthy (m10 (cs "alice")) ≠ none →
        (handleUnlink m10 (cs "alice")).1 (cs "alice") = none
        ∧ (handleUnlink m10 (cs "alice")).2 = true) :=
  C10_amended_frame m10 (cs "alice") (cs "bob") (cs "u2") (some (cs "u2")) (by decide)

theorem processTokens_cons (env : Env) (uid cf : List Char) (now off : Int)
    (t : List Char) (ts : List (List Char)) (lines rest : List ReportLine)
    (h1 : (tokenResults env uid cf now off t).2 = Except.ok lines)
    (h2 : (processTokens env uid cf now off ts).2 = Except.ok rest) :
    (processTokens env uid cf now off (t :: ts)).2 = Except.ok (lines ++ rest) := by
  unfold processTokens
  rcases hA : tokenResults env uid cf now off t with ⟨logA, rA⟩
  rcases hB : processTokens env uid cf now off ts with ⟨logB, rB⟩
  rw [hA] at h1
  rw [hB] at h2
  simp only at h1 h2
  subst h1
  subst h2
  simp

theorem processTokens_error_of_mem (env : Env) (uid cf : List Char) (now off : Int)
    (t : List Char)
    (hfail : (tokenResults env uid cf now off t).2 = Except.error ()) :
    ∀ tokens : List (List Char), t ∈ tokens →
      (processTokens env uid cf now off tokens).2 = Except.error () := by
  intro tokens
  induction tokens with
  | nil => intro h; cases h
  | cons a ts ih =>
    intro hmem
    unfold processTokens
    rcases hA : tokenResults env uid cf now off a with ⟨logA, rA⟩
    cases rA with
    | error e => simp
    | ok lines =>
      rcases hB : processTokens env uid cf now off ts with ⟨logB, rB⟩
      have hmem2 : t = a ∨ t ∈ ts := by
        cases hmem with
        | head => exact Or.inl rfl
        | tail _ h => exact Or.inr h
      cases hmem2 with
      | inl heq =>
        subst heq
        rw [hA] at hfail
        simp at hfail
      | inr hts =>
        have := ih hts
        rw [hB] at this
        simp only at this
        subst this
        simp

theorem header_ne_gateway (x : List Char) : headerStr ++ x ≠ gatewayFailMsg := by
  have h1 : headerStr = 'T' :: cs "oday\x27s update" := by decide
  have h2 : gatewayFailMsg =
      'C' :: cs "ould not fetch Favro cards right now. Please try again later." := by decide
  rw [h1, h2]
  intro h
  rw [List.cons_append] at h
  injection h with h3 _
  exact absurd h3 (by decide)

/-- Claim C1: if any token of the batch hits a Gateway-level hard failure
(timeout or non-403 HTTP error, i.e. its processing returns `Except.error`),
the whole batch aborts: the caller receives exactly the single generic
failure message, which is never of the report form (header plus aggregated
body) for any result list — so no per-token line, for tokens before or after
the failing one, is ever delivered. -/
theorem C1_gateway_failure_aborts_batch (env : Env) (m : Mapp) (callerId : List Char)
    (timeCfId : Option (List Char)) (now off : Int) (tokens : List (List Char))
    (favroUserId cfId t : List Char)
    (hlink : truthy (m callerId) = some favroUserId)
    (hcf : truthy timeCfId = some cfId)
    (hmem : t ∈ tokens)
    (hfail : (tokenResults env favroUserId cfId now off t).2 = Except.error ()) :
    (handleTimesheet env m callerId timeCfId now off tokens).reply = gatewayFailMsg
    ∧ ∀ results : List ReportLine,
        (handleTimesheet env m callerId timeCfId now off tokens).reply
          ≠ headerStr ++ cs "\n" ++ renderBody results := by
  have htok : tokens ≠ [] := by
    intro h
    subst h
    cases hmem
  have herr := processTokens_error_of_mem env favroUserId cfId now off t hfail tokens hmem
  have hrep : (handleTimesheet env m callerId timeCfId now off tokens).reply = gatewayFailMsg := by
    unfold handleTimesheet
    rw [hlink, hcf]
    simp only [if_neg htok]
    rcases hP : processTokens env favroUserId cfId now off tokens with ⟨log, r⟩
    rw [hP] at herr
    simp only at herr
    subst herr
    simp
  refine ⟨hrep, fun results h => ?_⟩
  rw [hrep] at h
  exact header_ne_gateway (cs "\n" ++ renderBody results) (by rw [List.append_assoc] at h; exact h.symm)

/-- Witness for C1: a Gateway failure on the second of three tokens (BOK-2
needs page 1 of widget `w`, which fails) makes the whole batch reply with the
generic failure message. -/
theorem C1_witness :
    (handleTimesheet E1 M1 (cs "alice") (some (cs "f")) 0 0
        [cs "BOK-1", cs "BOK-2", cs "BOK-3"]).reply = gatewayFailMsg
    ∧ ∀ results : List ReportLine,
        (handleTimesheet E1 M1 (cs "alice") (some (cs "f")) 0 0
            [cs "BOK-1", cs "BOK-2", cs "BOK-3"]).reply
          ≠ headerStr ++ cs "\n" ++ renderBody results :=
  C1_gateway_failure_aborts_batch E1 M1 (cs "alice") (some (cs "f")) 0 0
    [cs "BOK-1", cs "BOK-2", cs "BOK-3"] (cs "u") (cs "f") (cs "BOK-2")
    (by decide) (by decide) (by decide) (by decide)

/-- Claim C3: tokens are aggregated independently and in order — a token
whose resolution yields no card contributes exactly the single
"card not found" sentinel line (it does not abort the batch); a resolved
card contributes the single "no timesheet entry for today" sentinel when
extraction is empty, and otherwise exactly one line per extracted sub-record
(in stored order, via `List.map`); and the lines of a batch are the
concatenation of the per-token lines in token input order. -/
theorem C3_per_token_isolation_and_order (env : Env) (favroUserId cfId : List Char)
    (now off : Int) :
    (∀ t : List Char, (resolveToken env t).2 = Except.ok none →
        (tokenResults env favroUserId cfId now off t).2 = Except.ok [notFoundLine t])
    ∧ (∀ (t : List Char) (card : Card), (resolveToken env t).2 = Except.ok (some card) →
        (tokenResults env favroUserId cfId now off t).2
          = Except.ok
              (if extractTodaysReports card favroUserId cfId now off = []
               then [noEntryLine card]
               else (extractTodaysReports card favroUserId cfId now off).map (entryLine card)))
    ∧ (∀ (card : Card),
        ((extractTodaysReports card favroUserId cfId now off).map (entryLine card)).length
          = (extractTodaysReports card favroUserId cfId now off).length)
    ∧ (∀ (t : List Char) (ts : List (List Char)) (lines rest : List ReportLine),
        (tokenResults env favroUserId cfId now off t).2 = Except.ok lines →
        (processTokens env favroUserId cfId now off ts).2 = Except.ok rest →
        (processTokens env favroUserId cfId now off (t :: ts)).2 = Except.ok (lines ++ rest)) := by
  refine ⟨?_, ?_, ?_, processTokens_cons env favroUserId cfId now off⟩
  · intro t h
    unfold tokenResults
    rcases hR : resolveToken env t with ⟨log, r⟩
    rw [hR] at h
    simp only at h
    subst h
    simp
  · intro t card h
    unfold tokenResults
    rcases hR : resolveToken env t with ⟨log, r⟩
    rw [hR] at h
    simp only at h
    subst h
    by_cases he : extractTodaysReports card favroUserId cfId now off = []
    · simp [he]
    · simp [he]
  · intro card
    simp

/-- Witness for C3: tokens `[BOK-1, BOK-2]` against `E3` (BOK-1 unresolved,
BOK-2 carrying two sub-records) produce exactly the not-found sentinel for
BOK-1 followed by BOK-2's two lines, in order. -/
theorem C3_witness :
    (processTokens E3 (cs "u") (cs "f") 0 0 [cs "BOK-1", cs "BOK-2"]).2
      = Except.ok
          ([notFoundLine (cs "BOK-1")]
            ++ [⟨cs "BOK-2", cs "01:00", cs "first"⟩, ⟨cs "BOK-2", cs "00:30", cs "second"⟩]) :=
  (C3_per_token_isolation_and_order E3 (cs "u") (cs "f") 0 0).2.2.2
    (cs "BOK-1") [cs "BOK-2"]
    [notFoundLine (cs "BOK-1")]
    [⟨cs "BOK-2", cs "01:00", cs "first"⟩, ⟨cs "BOK-2", cs "00:30", cs "second"⟩]
    ((C3_per_token_isolation_and_order E3 (cs "u") (cs "f") 0 0).1 (cs "BOK-1") (by decide))
    (by decide)

/-- Claim C7: a 403 on a scope's list call skips that scope entirely —
scanning it issues exactly the one denied request and resolution continues
with the remaining scopes unchanged; in particular a match found in a later
scope is still returned. -/
theorem C7_scope_denied_skips (env : Env) (key : KeyRef) (w : List Char)
    (ws : List (List Char)) (hdeny : env.cardsByWidget w 0 = ApiResult.denied)
    (hmax : 0 < env.maxPages) :
    scanWidgets env key (w :: ws)
      = (Req.getCardsByWidget w 0 :: (scanWidgets env key ws).1, (scanWidgets env key ws).2)
    ∧ (∀ c : Card, (scanWidgets env key ws).2 = Except.ok (some c) →
        (scanWidgets env key (w :: ws)).2 = Except.ok (some c)) := by
  obtain ⟨f, hf⟩ : ∃ f, env.maxPages = f + 1 := ⟨env.maxPages - 1, by omega⟩
  have hsp : scanPages env key w 0 1 env.maxPages
      = ([Req.getCardsByWidget w 0], Except.ok none) := by
    rw [hf]
    simp only [scanPages]
    rw [if_pos (by norm_num : (0:Nat) < 1), hdeny]
  have h1 : scanWidgets env key (w :: ws)
      = (Req.getCardsByWidget w 0 :: (scanWidgets env key ws).1, (scanWidgets env key ws).2) := by
    rcases hW : scanWidgets env key ws with ⟨log2, r2⟩
    simp [scanWidgets, hsp, hW]
  refine ⟨h1, fun c h => ?_⟩
  rw [h1]
  exact h

/-- Witness for C7: widget `w1` denies access but `card7` (key BOK-7) is
still found on widget `w2`. -/
theorem C7_witness :
    scanWidgets E7 key7 [cs "w1", cs "w2"]
      = (Req.getCardsByWidget (cs "w1") 0 :: (scanWidgets E7 key7 [cs "w2"]).1,
         (scanWidgets E7 key7 [cs "w2"]).2)
    ∧ (scanWidgets E7 key7 [cs "w1", cs "w2"]).2 = Except.ok (some card7) :=
  ⟨(C7_scope_denied_skips E7 key7 (cs "w1") [cs "w2"] (by decide) (by decide)).1,
   (C7_scope_denied_skips E7 key7 (cs "w1") [cs "w2"] (by decide) (by decide)).2
     card7 (by decide)⟩

/-- Claim C4 counterexample: the page entity `cexCard` has sequence 1 and a
page-payload prefix `ABC`, different from `key4`'s prefix `BOK`; the claim
says such a candidate may be accepted "only if its prefix, when present in
the page payload, equals ref.prefix", yet the scan accepts it (returning the
detailed card, whose prefix matches) because a present-but-different page
prefix falls into the detailed-fetch branch rather than being rejected. -/
theorem C4_counterexample :
    pagePre cexCard ≠ []
    ∧ pagePre cexCard ≠ key4.pfx
    ∧ coalesceSeq cexCard = some key4.sequentialId
    ∧ (scanEntities E4 key4 [cexCard]).2 = Except.ok (some cexDetail) := by
  exact ⟨by decide, by decide, by decide, by decide⟩

/-- Claim C4 (amended): on a sequence match the candidate is accepted
outright when its page prefix is present and equals `ref.prefix` (enriched
by a detail fetch when a card id is present); when the page prefix is absent
**or different**, one detailed fetch is performed and the candidate is
accepted only if the detailed prefix and sequence jointly match, otherwise
scanning continues; and the first accepted match is returned immediately —
the rest of the page, further pages, and further scopes are not scanned. -/
theorem C4_amended_tiebreak (env : Env) (key : KeyRef) :
    (∀ (c : Card) (rest : List Card), coalesceSeq c ≠ some key.sequentialId →
        scanEntities env key (c :: rest) = scanEntities env key rest)
    ∧ (∀ (c : Card) (rest : List Card), coalesceSeq c = some key.sequentialId →
        pagePre c ≠ [] → pagePre c = key.pfx → truthy c.cardCommonId = none →
        scanEntities env key (c :: rest) = ([], Except.ok (some c)))
    ∧ (∀ (c : Card) (rest : List Card) (cid : List Char),
        coalesceSeq c = some key.sequentialId →
        pagePre c ≠ [] → pagePre c = key.pfx → truthy c.cardCommonId = some cid →
        scanEntities env key (c :: rest)
          = ((fetchCardByCommonId env cid).1,
             match (fetchCardByCommonId env cid).2 with
             | Except.error e => Except.error e
             | Except.ok dOpt => Except.ok (some (dOpt.getD c))))
    ∧ (∀ (c : Card) (rest : List Card) (cid : List Char) (d : Card) (ds : List Card),
        coalesceSeq c = some key.sequentialId →
        ¬(pagePre c ≠ [] ∧ pagePre c = key.pfx) →
        truthy c.cardCommonId = some cid →
        env.cardsByCommonId cid = ApiResult.ok (d :: ds) →
        (detailMatches key d = true →
            scanEntities env key (c :: rest)
              = ([Req.getCardsByCommonId cid], Except.ok (some d)))
        ∧ (detailMatches key d = false →
            scanEntities env key (c :: rest)
              = (Req.getCardsByCommonId cid :: (scanEntities env key rest).1,
                 (scanEntities env key rest).2)))
    ∧ (∀ (w : List Char) (page pages fuel : Nat) (ents : List Card) (pr : Nat) (c : Card),
        env.cardsByWidget w page = ApiResult.ok ⟨ents, pr⟩ → page < pages →
        (scanEntities env key ents).2 = Except.ok (some c) →
        scanPages env key w page pages (fuel + 1)
          = (Req.getCardsByWidget w page :: (scanEntities env key ents).1, Except.ok (some c)))
    ∧ (∀ (w : List Char) (ws : List (List Char)) (c : Card),
        (scanPages env key w 0 1 env.maxPages).2 = Except.ok (some c) →
        scanWidgets env key (w :: ws)
          = ((scanPages env key w 0 1 env.maxPages).1, Except.ok (some c))) := by
  refine ⟨?_, ?_, ?_, ?_, ?_, ?_⟩
  · intro c rest hseq
    simp only [scanEntities]
    rw [if_neg hseq]
  · intro c rest hseq hpre1 hpre2 hcid
    simp only [scanEntities]
    rw [if_pos hseq, if_pos ⟨hpre1, hpre2⟩, hcid]
  · intro c rest cid hseq hpre1 hpre2 hcid
    simp only [scanEntities]
    rw [if_pos hseq, if_pos ⟨hpre1, hpre2⟩, hcid]
    rcases hF : fetchCardByCommonId env cid with ⟨logF, rF⟩
    cases rF with
    | error e => simp [hF]
    | ok dOpt => simp [hF]
  · intro c rest cid d ds hseq hnot hcid henv
    have hF : fetchCardByCommonId env cid = ([Req.getCardsByCommonId cid], Except.ok (some d)) := by
      unfold fetchCardByCommonId
      rw [henv]
      simp
    constructor
    · intro hm
      simp only [scanEntities]
      rw [if_pos hseq, if_neg hnot, hcid]
      simp [hF, hm]
    · intro hm
      simp only [scanEntities]
      rw [if_pos hseq, if_neg hnot, hcid]
      rcases hR : scanEntities env key rest with ⟨log2, r2⟩
      simp [hF, hm, hR]
  · intro w page pages fuel ents pr c henv hlt hfound
    simp only [scanPages]
    rw [if_pos hlt, henv]
    rcases hSE : scanEntities env key ents with ⟨logE, rE⟩
    rw [hSE] at hfound
    simp only at hfound
    subst hfound
    simp [hSE]
  · intro w ws c hfound
    rcases hSP : scanPages env key w 0 1 env.maxPages with ⟨logP, rP⟩
    rw [hSP] at hfound
    simp only at hfound
    subst hfound
    simp only [scanWidgets, hSP]

/-- Witness for the amended C4: against `E4`, the mismatching-page-prefix
candidate is resolved through exactly one detailed fetch and accepted, and a
found scan result stops the widget loop. -/
theorem C4_witness :
    scanEntities E4 key4 [cexCard]
      = ([Req.getCardsByCommonId (cs "x1")], Except.ok (some cexDetail))
    ∧ scanWidgets E9 ⟨cs "BOK", 5106⟩ [cs "w", cs "other"]
      = ((scanPages E9 ⟨cs "BOK", 5106⟩ (cs "w") 0 1 E9.maxPages).1,
         Except.ok (some card9)) :=
  ⟨((C4_amended_tiebreak E4 key4).2.2.2.1 cexCard [] (cs "x1") cexDetail []
      (by decide) (by decide) (by decide) (by decide)).1 (by decide),
   (C4_amended_tiebreak E9 ⟨cs "BOK", 5106⟩).2.2.2.2.2 (cs "w") [cs "other"] card9 (by decide)⟩

/-- Claim C5: extraction returns exactly the user's sub-records of the
time-tracking field whose creation instants, converted to the configured
(fixed-offset) timezone, fall in the closed interval
[start-of-day, end-of-day] — an item without the field yields `[]` (not an
error), the result is the filter of the user's stored record list (hence in
stored insertion order) mapped to entries, a record at local 23:59:59 (999 ms
before end-of-day) is included and one at local 00:00:00 of the next day
(1 ms after end-of-day) is excluded. -/
theorem C5_extraction_window (card : Card) (favroUserId timeCfId : List Char)
    (now off : Int) :
    (card.customFields.find? (fun f => f.customFieldId = timeCfId) = none →
        extractTodaysReports card favroUserId timeCfId now off = [])
    ∧ (∀ cf, card.customFields.find? (fun f => f.customFieldId = timeCfId) = some cf →
        cf.reports = none → extractTodaysReports card favroUserId timeCfId now off = [])
    ∧ (∀ cf reps entries,
        card.customFields.find? (fun f => f.customFieldId = timeCfId) = some cf →
        cf.reports = some reps → reps.lookup favroUserId = some entries →
        extractTodaysReports card favroUserId timeCfId now off
          = (entries.filter (fun r => isTodayInTZ r.createdAt now off)).map toEntry)
    ∧ (∀ t : Int, isTodayInTZ (some t) now off = true ↔
        startOfDayTZ now off ≤ t ∧ t ≤ endOfDayTZ now off)
    ∧ isTodayInTZ (some (endOfDayTZ now off - 999)) now off = true
    ∧ isTodayInTZ (some (endOfDayTZ now off + 1)) now off = false
    ∧ isTodayInTZ none now off = false := by
  have hiff : ∀ t : Int, isTodayInTZ (some t) now off = true ↔
      startOfDayTZ now off ≤ t ∧ t ≤ endOfDayTZ now off := by
    intro t
    simp only [isTodayInTZ, decide_eq_true_eq, endOfDayTZ, msPerDay]
    omega
  refine ⟨?_, ?_, ?_, hiff, ?_, ?_, rfl⟩
  · intro h
    unfold extractTodaysReports
    rw [h]
  · intro cf h1 h2
    unfold extractTodaysReports
    rw [h1]
    simp [h2]
  · intro cf reps entries h1 h2 h3
    unfold extractTodaysReports
    rw [h1]
    simp [h2, h3]
  · rw [hiff]
    simp only [endOfDayTZ, msPerDay]
    omega
  · cases hx : isTodayInTZ (some (endOfDayTZ now off + 1)) now off with
    | false => rfl
    | true =>
      exfalso
      have := (hiff (endOfDayTZ now off + 1)).mp hx
      simp only [endOfDayTZ, msPerDay] at this
      omega

/-- Witness for C5: card9's single record today is extracted as the filter of
the stored list, and the boundary instants behave as claimed at `now = 0`,
`off = 0`. -/
theorem C5_witness :
    extractTodaysReports card9 (cs "u") (cs "f") 0 0
      = (([(⟨some 5400000, some (cs "Fixed bug"), some 0⟩ : Report)]).filter
          (fun r => isTodayInTZ r.createdAt 0 0)).map toEntry
    ∧ isTodayInTZ (some (endOfDayTZ 0 0 - 999)) 0 0 = true
    ∧ isTodayInTZ (some (endOfDayTZ 0 0 + 1)) 0 0 = false :=
  ⟨(C5_extraction_window card9 (cs "u") (cs "f") 0 0).2.2.1
      ⟨cs "f", some [(cs "u", [⟨some 5400000, some (cs "Fixed bug"), some 0⟩])]⟩
      [(cs "u", [⟨some 5400000, some (cs "Fixed bug"), some 0⟩])]
      [⟨some 5400000, some (cs "Fixed bug"), some 0⟩]
      (by decide) (by decide) (by decide),
   (C5_extraction_window card9 (cs "u") (cs "f") 0 0).2.2.2.2.1,
   (C5_extraction_window card9 (cs "u") (cs "f") 0 0).2.2.2.2.2.1⟩

theorem widgetReqCount_nil (w : List Char) : widgetReqCount w [] = 0 := rfl

theorem widgetReqCount_append (w : List Char) (l1 l2 : List Req) :
    widgetReqCount w (l1 ++ l2) = widgetReqCount w l1 + widgetReqCount w l2 := by
  simp [widgetReqCount, List.filter_append]

theorem widgetReqCount_commonId (w cid : List Char) (l : List Req) :
    widgetReqCount w (Req.getCardsByCommonId cid :: l) = widgetReqCount w l := by
  simp [widgetReqCount, List.filter, isWidgetReq]

theorem widgetReqCount_widget (w w2 : List Char) (p : Nat) (l : List Req) :
    widgetReqCount w (Req.getCardsByWidget w2 p :: l)
      = (if w2 = w then 1 else 0) + widgetReqCount w l := by
  by_cases h : w2 = w
  · simp [widgetReqCount, List.filter, isWidgetReq, h]
    omega
  · simp [widgetReqCount, List.filter, isWidgetReq, h]

theorem widgetReqCount_scanEntities (env : Env) (key : KeyRef) (w : List Char) :
    ∀ ents : List Card, widgetReqCount w (scanEntities env key ents).1 = 0 := by
  intro ents
  induction ents with
  | nil => rfl
  | cons c rest ih =>
    simp only [scanEntities]
    split
    · split
      · split
        · split
          · next log e heq =>
            have := congrArg Prod.fst heq
            simp only [fetchCardByCommonId] at this
            simp [← this, widgetReqCount_commonId, widgetReqCount_nil]
          · next log dOpt heq =>
            have := congrArg Prod.fst heq
            simp only [fetchCardByCommonId] at this
            simp [← this, widgetReqCount_commonId, widgetReqCount_nil]
        · rfl
      · split
        · split
          · next log e heq =>
            have := congrArg Prod.fst heq
            simp only [fetchCardByCommonId] at this
            simp [← this, widgetReqCount_commonId, widgetReqCount_nil]
          · next log d heq =>
            split
            · next =>
              have := congrArg Prod.fst heq
              simp only [fetchCardByCommonId] at this
              simp [← this, widgetReqCount_commonId, widgetReqCount_nil]
            · next =>
              rcases hR : scanEntities env key rest with ⟨log2, r2⟩
              rw [hR] at ih
              have hlog := congrArg Prod.fst heq
              simp only [fetchCardByCommonId] at hlog
              simp [hR, ← hlog, widgetReqCount_append, widgetReqCount_commonId,
                widgetReqCount_nil, ih]
          · next log heq =>
            rcases hR : scanEntities env key rest with ⟨log2, r2⟩
            rw [hR] at ih
            have hlog := congrArg Prod.fst heq
            simp only [fetchCardByCommonId] at hlog
            simp [hR, ← hlog, widgetReqCount_append, widgetReqCount_commonId,
              widgetReqCount_nil, ih]
        · exact ih
    · exact ih

theorem widgetReqCount_scanPages (env : Env) (key : KeyRef) (w : List Char) :
    ∀ (fuel page pages : Nat) (w2 : List Char),
      widgetReqCount w (scanPages env key w2 page pages fuel).1
        ≤ if w2 = w then fuel else 0 := by
  intro fuel
  induction fuel with
  | zero =>
    intro page pages w2
    have h0 : widgetReqCount w (scanPages env key w2 page pages 0).1 = 0 := rfl
    rw [h0]
    exact Nat.zero_le _
  | succ f ih =>
    intro page pages w2
    simp only [scanPages]
    by_cases hlt : page < pages
    · rw [if_pos hlt]
      cases henv : env.cardsByWidget w2 page with
      | denied =>
        simp only [widgetReqCount_widget, widgetReqCount_nil]
        by_cases hw : w2 = w <;> simp [hw]
      | fail =>
        simp only [widgetReqCount_widget, widgetReqCount_nil]
        by_cases hw : w2 = w <;> simp [hw]
      | ok data =>
        rcases hSE : scanEntities env key data.entities with ⟨logE, rE⟩
        have hE := widgetReqCount_scanEntities env key w data.entities
        rw [hSE] at hE
        simp only at hE
        cases rE with
        | error e =>
          simp only [hSE, widgetReqCount_widget, hE]
          by_cases hw : w2 = w <;> simp [hw]
        | ok c =>
          cases c with
          | some c =>
            simp only [hSE, widgetReqCount_widget, hE]
            by_cases hw : w2 = w <;> simp [hw]
          | none =>
            rcases hSP : scanPages env key w2 (page + 1)
                (if data.pagesRaw = 0 then 1 else data.pagesRaw) f with ⟨logP, rP⟩
            have hP := ih (page + 1) (if data.pagesRaw = 0 then 1 else data.pagesRaw) w2
            rw [hSP] at hP
            simp only at hP
            simp only [hSE, hSP, widgetReqCount_widget, widgetReqCount_append, hE]
            by_cases hw : w2 = w
            · rw [if_pos hw] at hP ⊢
              rw [if_pos hw]
              omega
            · rw [if_neg hw] at hP ⊢
              rw [if_neg hw]
              omega
    · rw [if_neg hlt]
      show widgetReqCount w [] ≤ _
      rw [widgetReqCount_nil]
      exact Nat.zero_le _

theorem widgetReqCount_scanWidgets_zero (env : Env) (key : KeyRef) (w : List Char) :
    ∀ ws : List (List Char), w ∉ ws →
      widgetReqCount w (scanWidgets env key ws).1 = 0 := by
  intro ws
  induction ws with
  | nil => intro _; rfl
  | cons a ts ih =>
    intro hmem
    have ha : a ≠ w := by
      intro h
      exact hmem (by simp [h])
    have hts : w ∉ ts := fun h => hmem (by simp [h])
    have hP := widgetReqCount_scanPages env key w env.maxPages 0 1 a
    rw [if_neg ha] at hP
    have hP0 : widgetReqCount w (scanPages env key a 0 1 env.maxPages).1 = 0 := by omega
    simp only [scanWidgets]
    rcases hSP : scanPages env key a 0 1 env.maxPages with ⟨logP, rP⟩
    rw [hSP] at hP0
    simp only at hP0
    cases rP with
    | error e => exact hP0
    | ok c =>
      cases c with
      | some c => exact hP0
      | none =>
        rcases hW : scanWidgets env key ts with ⟨log2, r2⟩
        have h2 := ih hts
        rw [hW] at h2
        simp only at h2
        simp [widgetReqCount_append, hP0, h2]

theorem widgetReqCount_scanWidgets_le (env : Env) (key : KeyRef) (w : List Char) :
    ∀ ws : List (List Char), ws.Nodup →
      widgetReqCount w (scanWidgets env key ws).1 ≤ env.maxPages := by
  intro ws
  induction ws with
  | nil =>
    intro _
    exact Nat.zero_le _
  | cons a ts ih =>
    intro hnd
    have hnd2 : ts.Nodup := (List.nodup_cons.mp hnd).2
    have hna : a ∉ ts := (List.nodup_cons.mp hnd).1
    have hP := widgetReqCount_scanPages env key w env.maxPages 0 1 a
    simp only [scanWidgets]
    rcases hSP : scanPages env key a 0 1 env.maxPages with ⟨logP, rP⟩
    rw [hSP] at hP
    simp only at hP
    cases rP with
    | error e =>
      show widgetReqCount w logP ≤ env.maxPages
      split at hP <;> omega
    | ok c =>
      cases c with
      | some c =>
        show widgetReqCount w logP ≤ env.maxPages
        split at hP <;> omega
      | none =>
        rcases hW : scanWidgets env key ts with ⟨log2, r2⟩
        show widgetReqCount w (logP ++ log2) ≤ env.maxPages
        rw [widgetReqCount_append]
        by_cases hw : a = w
        · have h2 := widgetReqCount_scanWidgets_zero env key w ts (hw ▸ hna)
          rw [hW] at h2
          simp only at h2
          rw [if_pos hw] at hP
          omega
        · rw [if_neg hw] at hP
          have h2 := ih hnd2
          rw [hW] at h2
          simp only at h2
          omega

theorem scanWidgets_none_of_all (env : Env) (key : KeyRef) :
    ∀ ws : List (List Char),
      (∀ w ∈ ws, (scanPages env key w 0 1 env.maxPages).2 = Except.ok none) →
      (scanWidgets env key ws).2 = Except.ok none := by
  intro ws
  induction ws with
  | nil => intro _; rfl
  | cons a ts ih =>
    intro h
    simp only [scanWidgets]
    rcases hSP : scanPages env key a 0 1 env.maxPages with ⟨logP, rP⟩
    have ha := h a (by simp)
    rw [hSP] at ha
    simp only at ha
    subst ha
    rcases hW : scanWidgets env key ts with ⟨log2, r2⟩
    have h2 := ih (fun x hx => h x (by simp [hx]))
    rw [hW] at h2
    simp only at h2
    subst h2
    simp

theorem foldl_pushNew_eq_append :
    ∀ (ids acc : List (List Char)), (∀ x ∈ ids, x ∉ acc) → ids.Nodup →
      ids.foldl (fun a w => if w ∈ a then a else a ++ [w]) acc = acc ++ ids := by
  intro ids
  induction ids with
  | nil => intro acc _ _; simp
  | cons a t ih =>
    intro acc h hn
    simp only [List.foldl_cons]
    have ha : a ∉ acc := h a (by simp)
    rw [if_neg ha]
    have hn2 : t.Nodup := (List.nodup_cons.mp hn).2
    have hna : a ∉ t := (List.nodup_cons.mp hn).1
    have h2 : ∀ x ∈ t, x ∉ acc ++ [a] := by
      intro x hx
      simp only [List.mem_append, List.mem_singleton]
      rintro (hc | hc)
      · exact h x (by simp [hx]) hc
      · subst hc
        exact hna hx
    rw [ih (acc ++ [a]) h2 hn2]
    simp

theorem foldl_pushNew_nodup :
    ∀ (ids acc : List (List Char)), acc.Nodup →
      (ids.foldl (fun a w => if w ∈ a then a else a ++ [w]) acc).Nodup := by
  intro ids
  induction ids with
  | nil => intro acc h; simpa
  | cons a t ih =>
    intro acc h
    simp only [List.foldl_cons]
    by_cases ha : a ∈ acc
    · rw [if_pos ha]
      exact ih acc h
    · rw [if_neg ha]
      refine ih _ ?_
      simp [List.nodup_append, h, ha]

theorem orderedWidgets_nodup (pref : Option (List Char)) (ids : List (List Char)) :
    (orderedWidgets pref ids).Nodup := by
  unfold orderedWidgets
  apply foldl_pushNew_nodup
  cases truthy pref <;> simp

/-- Claim C6: scopes are scanned in priority order — the truthy scope hint
first (when not already among the configured, duplicate-free scopes), then
the configured scopes in configured order; at most `maxPages` list pages are
fetched for any single scope during a whole resolution; and when every scope
in the priority list scans to "no match", the resolver returns the not-found
outcome. -/
theorem C6_scan_order_and_bounds (env : Env) (key : KeyRef)
    (pref : Option (List Char)) (ids : List (List Char)) :
    (∀ p, truthy pref = some p → p ∉ ids → ids.Nodup →
        orderedWidgets pref ids = p :: ids)
    ∧ (truthy pref = none → ids.Nodup → orderedWidgets pref ids = ids)
    ∧ (∀ w, widgetReqCount w (findCardByKeyInBoards env key pref).1 ≤ env.maxPages)
    ∧ ((∀ w ∈ orderedWidgets pref env.widgetIds,
          (scanPages env key w 0 1 env.maxPages).2 = Except.ok none) →
        (findCardByKeyInBoards env key pref).2 = Except.ok none) := by
  refine ⟨?_, ?_, ?_, ?_⟩
  · intro p hp hnotin hnd
    unfold orderedWidgets
    rw [hp]
    have hd : ∀ x ∈ ids, x ∉ [p] := by
      intro x hx
      simp only [List.mem_singleton]
      intro hc
      subst hc
      exact hnotin hx
    show ids.foldl (fun a w => if w ∈ a then a else a ++ [w]) [p] = p :: ids
    rw [foldl_pushNew_eq_append ids [p] hd hnd]
    rfl
  · intro hp hnd
    unfold orderedWidgets
    rw [hp]
    have hd : ∀ x ∈ ids, x ∉ ([] : List (List Char)) := by simp
    show ids.foldl (fun a w => if w ∈ a then a else a ++ [w]) [] = ids
    rw [foldl_pushNew_eq_append ids [] hd hnd]
    rfl
  · intro w
    exact widgetReqCount_scanWidgets_le env key w
      (orderedWidgets pref env.widgetIds) (orderedWidgets_nodup pref env.widgetIds)
  · intro h
    exact scanWidgets_none_of_all env key (orderedWidgets pref env.widgetIds) h

/-- Witness for C6 against `E6`: the hint `p` is scanned first, the page
count for `w1` is within the bound, and the all-empty environment resolves
to not-found. -/
theorem C6_witness :
    orderedWidgets (some (cs "p")) [cs "w1", cs "w2"] = [cs "p", cs "w1", cs "w2"]
    ∧ widgetReqCount (cs "w1") (findCardByKeyInBoards E6 key4 (some (cs "p"))).1 ≤ E6.maxPages
    ∧ (findCardByKeyInBoards E6 key4 (some (cs "p"))).2 = Except.ok none :=
  ⟨(C6_scan_order_and_bounds E6 key4 (some (cs "p")) [cs "w1", cs "w2"]).1
      (cs "p") (by decide) (by decide) (by decide),
   (C6_scan_order_and_bounds E6 key4 (some (cs "p")) [cs "w1", cs "w2"]).2.2.1 (cs "w1"),
   (C6_scan_order_and_bounds E6 key4 (some (cs "p")) [cs "w1", cs "w2"]).2.2.2 (by decide)⟩

theorem alpha_not_ws (c : Char) (h : c.isAlpha = true) : isWS c = false := by
  cases hw : isWS c with
  | false => rfl
  | true =>
    exfalso
    have hcases : c = ' ' ∨ c = '\t' ∨ c = '\r' ∨ c = '\n' := by
      simpa [isWS, Char.isWhitespace, Bool.or_eq_true, beq_iff_eq, or_assoc] using hw
    rcases hcases with h1 | h1 | h1 | h1 <;> subst h1 <;> exact absurd h (by decide)

theorem digit_not_ws (c : Char) (h : c.isDigit = true) : isWS c = false := by
  cases hw : isWS c with
  | false => rfl
  | true =>
    exfalso
    have hcases : c = ' ' ∨ c = '\t' ∨ c = '\r' ∨ c = '\n' := by
      simpa [isWS, Char.isWhitespace, Bool.or_eq_true, beq_iff_eq, or_assoc] using hw
    rcases hcases with h1 | h1 | h1 | h1 <;> subst h1 <;> exact absurd h (by decide)

theorem dropWhile_append_all {p : Char → Bool} :
    ∀ (l1 l2 : List Char), (∀ c ∈ l1, p c = true) →
      List.dropWhile p (l1 ++ l2) = List.dropWhile p l2 := by
  intro l1
  induction l1 with
  | nil => intro l2 _; rfl
  | cons a t ih =>
    intro l2 h
    rw [List.cons_append, List.dropWhile_cons, if_pos (h a (by simp))]
    exact ih l2 (fun c hc => h c (by simp [hc]))

theorem dropWhile_cons_of_false {p : Char → Bool} (a : Char) (l : List Char)
    (h : p a = false) : List.dropWhile p (a :: l) = a :: l := by
  rw [List.dropWhile_cons, if_neg]
  simp [h]

theorem dropWhile_all_ws (l : List Char) (h : ∀ c ∈ l, isWS c = true) :
    List.dropWhile isWS l = [] := by
  have := dropWhile_append_all l [] h
  simpa using this

theorem trimChars_pad (p1 p2 mid : List Char)
    (hp1 : ∀ c ∈ p1, isWS c = true) (hp2 : ∀ c ∈ p2, isWS c = true)
    (hmid : ∀ c ∈ mid, isWS c = false) :
    trimChars (p1 ++ mid ++ p2) = mid := by
  unfold trimChars
  rw [List.append_assoc, dropWhile_append_all p1 (mid ++ p2) hp1]
  cases mid with
  | nil =>
    rw [List.nil_append, dropWhile_all_ws p2 hp2]
    rfl
  | cons m0 ms =>
    rw [List.cons_append, dropWhile_cons_of_false m0 (ms ++ p2) (hmid m0 (by simp))]
    rw [show (m0 :: (ms ++ p2)).reverse = p2.reverse ++ (ms.reverse ++ [m0]) by
      simp]
    rw [dropWhile_append_all p2.reverse (ms.reverse ++ [m0])
      (fun c hc => hp2 c (List.mem_reverse.mp hc))]
    have hdrop : List.dropWhile isWS (ms.reverse ++ [m0]) = ms.reverse ++ [m0] := by
      cases hrev : ms.reverse with
      | nil =>
        rw [List.nil_append]
        exact dropWhile_cons_of_false m0 [] (hmid m0 (by simp))
      | cons r rs =>
        rw [List.cons_append]
        have hr : r ∈ ms := by
          have : r ∈ ms.reverse := by rw [hrev]; simp
          exact List.mem_reverse.mp this
        exact dropWhile_cons_of_false r (rs ++ [m0]) (hmid r (by simp [hr]))
    rw [hdrop]
    simp

theorem takeWhile_append_of_all {p : Char → Bool} :
    ∀ (l1 : List Char) (x : Char) (l2 : List Char),
      (∀ c ∈ l1, p c = true) → p x = false →
      List.takeWhile p (l1 ++ x :: l2) = l1 := by
  intro l1
  induction l1 with
  | nil =>
    intro x l2 _ hx
    rw [List.nil_append, List.takeWhile_cons, if_neg]
    simp [hx]
  | cons a t ih =>
    intro x l2 h hx
    rw [List.cons_append, List.takeWhile_cons, if_pos (h a (by simp))]
    rw [ih x l2 (fun c hc => h c (by simp [hc])) hx]

theorem dropWhile_append_of_all {p : Char → Bool} :
    ∀ (l1 : List Char) (x : Char) (l2 : List Char),
      (∀ c ∈ l1, p c = true) → p x = false →
      List.dropWhile p (l1 ++ x :: l2) = x :: l2 := by
  intro l1 x l2 h hx
  rw [dropWhile_append_all l1 (x :: l2) h]
  exact dropWhile_cons_of_false x l2 hx

theorem parseKeyCore_shape (a b : List Char) (ha : a ≠ [])
    (halpha : ∀ c ∈ a, c.isAlpha = true) (hb : b ≠ [])
    (hdigit : ∀ c ∈ b, c.isDigit = true) :
    parseKeyCore (a ++ '-' :: b) = some ⟨upperChars a, decDigits b⟩ := by
  have hall : b.all Char.isDigit = true := List.all_eq_true.mpr (by
    intro c hc
    simp [hdigit c hc])
  simp only [parseKeyCore]
  rw [takeWhile_append_of_all a '-' b halpha (by decide)]
  rw [dropWhile_append_of_all a '-' b halpha (by decide)]
  simp only [if_neg ha, if_neg hb, hall, if_true]

/-- Claim C8: every (optionally whitespace-padded) string of shape
`letters-digits` parses to a `KeyRef` with uppercased prefix and the exact
decimal sequence value, and is classified as a key regardless of the
padding; every hyphen-free string of length ≥ 8 over `[A-Za-z0-9_]` is
classified as an opaque card id; `BOK-6074` is never classified as an opaque
id; and a token classified unparseable triggers no remote call and resolves
to nothing. -/
theorem C8_token_classification :
    (∀ p1 p2 a b : List Char,
        (∀ c ∈ p1, isWS c = true) → (∀ c ∈ p2, isWS c = true) →
        a ≠ [] → (∀ c ∈ a, c.isAlpha = true) →
        b ≠ [] → (∀ c ∈ b, c.isDigit = true) →
        parseKey (p1 ++ (a ++ '-' :: b) ++ p2) = some ⟨upperChars a, decDigits b⟩
        ∧ classifyToken (p1 ++ (a ++ '-' :: b) ++ p2)
            = TokenClass.keyRef ⟨upperChars a, decDigits b⟩)
    ∧ (∀ t : List Char, 8 ≤ t.length → (∀ c ∈ t, commonIdChar c = true) →
        '-' ∉ t → classifyToken t = TokenClass.commonId)
    ∧ classifyToken (cs "BOK-6074") ≠ TokenClass.commonId
    ∧ (∀ (env : Env) (t : List Char), env.tryURL t = none →
        classifyToken t = TokenClass.unparseable →
        resolveToken env t = ([], Except.ok none)) := by
  refine ⟨?_, ?_, by decide, ?_⟩
  · intro p1 p2 a b hp1 hp2 ha halpha hb hdigit
    have hmid : ∀ c ∈ a ++ '-' :: b, isWS c = false := by
      intro c hc
      rcases List.mem_append.mp hc with hca | hcb
      · exact alpha_not_ws c (halpha c hca)
      · rcases List.mem_cons.mp hcb with hdash | hcb2
        · subst hdash
          decide
        · exact digit_not_ws c (hdigit c hcb2)
    have hparse : parseKey (p1 ++ (a ++ '-' :: b) ++ p2)
        = some ⟨upperChars a, decDigits b⟩ := by
      unfold parseKey
      rw [trimChars_pad p1 p2 (a ++ '-' :: b) hp1 hp2 hmid]
      exact parseKeyCore_shape a b ha halpha hb hdigit
    have hdash : '-' ∈ p1 ++ (a ++ '-' :: b) ++ p2 := by simp
    have hlooks : looksLikeCommonId (p1 ++ (a ++ '-' :: b) ++ p2) = false := by
      simp [looksLikeCommonId, hdash]
    refine ⟨hparse, ?_⟩
    unfold classifyToken
    rw [hlooks]
    simp only [Bool.false_eq_true, if_false]
    rw [hparse]
  · intro t h1 h2 h3
    have hl : looksLikeCommonId t = true := by
      unfold looksLikeCommonId
      simp only [Bool.and_eq_true, Bool.not_eq_true', decide_eq_true_eq,
        decide_eq_false_iff_not]
      exact ⟨⟨h1, List.all_eq_true.mpr (fun c hc => by simp [h2 c hc])⟩, h3⟩
    simp [classifyToken, hl]
  · intro env t hurl hclass
    have hlooks : looksLikeCommonId t = false := by
      cases hlk : looksLikeCommonId t with
      | false => rfl
      | true => simp [classifyToken, hlk] at hclass
    have hparse : parseKey t = none := by
      cases hp : parseKey t with
      | none => rfl
      | some k => simp [classifyToken, hlooks, hp] at hclass
    have hu : urlResolve env t = ([], Except.ok (none, none)) := by
      unfold urlResolve parseFavroUrlToken
      rw [hurl]
    unfold resolveToken
    rw [hu]
    simp only [hlooks, Bool.false_eq_true, if_false]
    unfold keyFallback
    rw [hparse]

/-- Witness for C8: the padded token `  bok-6074 ` parses and classifies as
the key `BOK-6074`, and a 24-character hex id classifies as an opaque id. -/
theorem C8_witness :
    (parseKey (cs "  " ++ (cs "bok" ++ '-' :: cs "6074") ++ cs " ")
        = some ⟨upperChars (cs "bok"), decDigits (cs "6074")⟩
      ∧ classifyToken (cs "  " ++ (cs "bok" ++ '-' :: cs "6074") ++ cs " ")
          = TokenClass.keyRef ⟨upperChars (cs "bok"), decDigits (cs "6074")⟩)
    ∧ classifyToken (cs "8f0048648ed3eb25aee16c0c") = TokenClass.commonId :=
  ⟨(C8_token_classification).1 (cs "  ") (cs " ") (cs "bok") (cs "6074")
      (by decide) (by decide) (by decide) (by decide) (by decide) (by decide),
   (C8_token_classification).2.1 (cs "8f0048648ed3eb25aee16c0c")
      (by decide) (by decide) (by decide)⟩

end FavroBot
